import Mathlib

/-!
Verification of the Availability & Slot-Scheduling Engine of the booking
application, against its natural-language specification.

The development shallowly embeds the engine's TypeScript source:

* `src/lib/utils/timeUtils.ts` — `timeToMinutes`, `formatTime`
  (pure time-of-day arithmetic over "HH:MM" strings);
* `src/lib/services/availabilityService.ts` — `calculateFreeIntervals`,
  `generateSlots` (pure interval algebra over minute ranges), the
  conflict-source adapters `getDbBusyBlocks` / `getGcalBusyBlocks`, and the
  `checkAvailability` decision pipeline;
* `src/app/api/slots/route.ts` — the per-staff slot computation of the
  GET handler;
* `src/app/api/bookings/route.ts` — the POST booking-creation flow,
  modelled as the trace of transactional events it performs.

JavaScript strings are modelled as `List Char` (wrapped in `String` at the
interface), JavaScript numbers occurring in the engine as `Int` (the engine
only ever manipulates integral minute counts and instants), fallible
collaborators (database queries, the Google client) as `Except`/`Option`
valued oracle inputs supplied in an environment record, so every claim can
be evaluated on concrete environments.
-/

namespace Booking

/-! ### TimeArithmetic: `src/lib/utils/timeUtils.ts` -/

/-- JavaScript `String.prototype.split(sep)` for a single-character
separator, on the char-list view of the string.
`"a:b".split(':') = ["a","b"]`, `"".split(':') = [""]`. -/
def splitOnChar (sep : Char) : List Char → List (List Char)
  | [] => [[]]
  | c :: rest =>
    let r := splitOnChar sep rest
    if c = sep then [] :: r
    else
      match r with
      | h :: t => (c :: h) :: t
      | [] => [[c]]

/-- The whitespace characters `parseInt` skips before parsing. -/
def isJsSpace (c : Char) : Bool :=
  c = ' ' ∨ c = '\t' ∨ c = '\n' ∨ c = '\x0d' ∨ c = '\x0b' ∨ c = '\x0c'

/-- Numeric value of a decimal digit list, most significant first. -/
def digitsVal (ds : List Char) : Nat :=
  ds.foldl (fun a c => 10 * a + (c.toNat - 48)) 0

/-- JavaScript `parseInt(s, 10)`: skip leading whitespace, read an optional
sign, then the longest prefix of decimal digits; `NaN` (here `none`) when
that prefix is empty.  Trailing non-digit characters are ignored, so
`parseInt("1x") = 1`. -/
def parseIntJs (cs : List Char) : Option Int :=
  let cs := cs.dropWhile isJsSpace
  let (sign, rest) : Int × List Char :=
    match cs with
    | '-' :: r => (-1, r)
    | '+' :: r => (1, r)
    | r => (1, r)
  let digits := rest.takeWhile Char.isDigit
  if digits.isEmpty then none else some (sign * (digitsVal digits : Int))

/-- `timeToMinutes` from `src/lib/utils/timeUtils.ts`: minutes from local
midnight of an "HH:MM" or "HH:MM:SS" string, `-1` as the invalid marker.
The source's `!timeStr || typeof timeStr !== 'string'` guard is the
emptiness test here (`null`/`undefined` inputs are outside the `String`
type of this embedding). -/
def timeToMinutes (timeStr : String) : Int :=
  if timeStr.data.isEmpty then -1
  else
    match splitOnChar ':' timeStr.data with
    | p0 :: p1 :: _ =>
      match parseIntJs p0, parseIntJs p1 with
      | some hours, some minutes =>
        if hours < 0 ∨ hours > 23 ∨ minutes < 0 ∨ minutes > 59 then -1
        else hours * 60 + minutes
      | _, _ => -1
    | _ => -1

/-- JavaScript `String(n).padStart(2, '0')` on the decimal representation. -/
def padStart2 (cs : List Char) : List Char :=
  List.replicate (2 - cs.length) '0' ++ cs

/-- `formatTime` from `src/lib/utils/timeUtils.ts`: "HH:MM" of a minute
count; negative input is defaulted to `0`, the value is wrapped modulo
1440.  (`NaN` and non-number inputs of the source are outside the `Int`
type of this embedding; `Math.floor` is the identity on integers.) -/
def formatTime (totalMinutes : Int) : String :=
  let t0 : Int := if totalMinutes < 0 then 0 else totalMinutes
  let t : Int := t0 % (24 * 60)
  let hours : Int := t / 60
  let mins : Int := t % 60
  String.mk (padStart2 (Nat.toDigits 10 hours.toNat) ++
    ':' :: padStart2 (Nat.toDigits 10 mins.toNat))

/-! ### IntervalSetAlgebra: `calculateFreeIntervals`, `generateSlots` -/

/-- A half-open minute range `[start, stop)`; `stop` embeds the source's
`end` field (a Lean keyword). -/
structure MRange where
  start : Int
  stop : Int
  deriving DecidableEq, Repr

/-- Integer point membership in a half-open minute range. -/
def inRange (p : Int) (r : MRange) : Bool :=
  r.start ≤ p ∧ p < r.stop

/-- Insertion into a list sorted by `start` ascending. -/
def insertByStart (b : MRange) : List MRange → List MRange
  | [] => [b]
  | x :: xs => if b.start ≤ x.start then b :: x :: xs else x :: insertByStart b xs

/-- `busyBlocks.sort((a, b) => a.start - b.start)`: stable sort by `start`
ascending (JavaScript `Array.prototype.sort` is stable). -/
def sortByStart : List MRange → List MRange
  | [] => []
  | x :: xs => insertByStart x (sortByStart xs)

/-- The inner loop of `calculateFreeIntervals` for one busy block: each
free range is dropped when degenerate, split around the busy block when
they overlap, kept unchanged otherwise. -/
def subtractBusy (busy : MRange) : List MRange → List MRange
  | [] => []
  | free :: rest =>
    if free.stop ≤ free.start then subtractBusy busy rest
    else
      let overlapStart := max free.start busy.start
      let overlapEnd := min free.stop busy.stop
      if overlapStart < overlapEnd then
        ((if free.start < busy.start then [MRange.mk free.start busy.start] else []) ++
         (if free.stop > busy.stop then [MRange.mk busy.stop free.stop] else [])) ++
        subtractBusy busy rest
      else
        free :: subtractBusy busy rest

/-- `calculateFreeIntervals` from `availabilityService.ts`: sort the busy
blocks by start and subtract them one by one from the working ranges,
skipping degenerate busy blocks. -/
def calculateFreeIntervals (workingIntervals busyBlocks : List MRange) : List MRange :=
  (sortByStart busyBlocks).foldl
    (fun freeIntervals busy =>
      if busy.stop ≤ busy.start then freeIntervals else subtractBusy busy freeIntervals)
    workingIntervals

/-- The `while (currentSlotStart + serviceDurationMinutes <= interval.end)`
loop of `generateSlots`, with an explicit fuel so the recursion is
structural (and hence evaluates inside the kernel).  With a positive step
the fuel below never runs out before the loop condition fails —
`slotStartsFrom_unfold` proves the fuel invisible. -/
def slotStartsFromGo (stop duration step : Int) : Nat → Int → List Int
  | 0, _ => []
  | fuel + 1, s =>
    if s + duration ≤ stop then s :: slotStartsFromGo stop duration step fuel (s + step)
    else []

/-- Slot starts emitted from `s` upward by `step` while
`s + duration ≤ stop`. -/
def slotStartsFrom (stop duration step s : Int) : List Int :=
  slotStartsFromGo stop duration step (stop - duration - s + 1).toNat s

/-- `generateSlots` from `availabilityService.ts`: slot start minutes in
each free interval long enough for the service, stepping by
`max(slotStepMinutes, 1)` from the interval start.  (The source defaults
`slotStepMinutes` to 15; callers here always pass it explicitly.) -/
def generateSlots (freeIntervals : List MRange) (serviceDurationMinutes : Int)
    (slotStepMinutes : Int) : List Int :=
  let step := max slotStepMinutes 1
  (freeIntervals.map (fun interval =>
    if interval.stop ≤ interval.start ∨
        interval.stop - interval.start < serviceDurationMinutes then []
    else slotStartsFrom interval.stop serviceDurationMinutes step interval.start)).flatten

/-! ### ConflictSourceAdapters and AvailabilityOrchestrator
(`src/lib/services/availabilityService.ts`)

Collaborator behaviour (database queries, the Google client) is supplied as
oracle inputs: an `Except Unit _` value is `.error ()` when the collaborator
throws, `.ok _` when it resolves.  UTC instants are integers (the engine
only compares them); `moment` timezone conversions, which are not
arithmetic, enter the model as the oracle-supplied local minute offsets
they produce. -/

/-- Row of the `staff` table as selected by `getStaffDetails`. -/
structure StaffDetails where
  name : String
  google_calendar_id : Option String
  is_google_connected : Bool
  is_active : Bool
  deriving DecidableEq, Repr

/-- Working-hours row as selected by `getWorkingInterval` (`start`/`stop`
are `HH24:MI` strings; `stop` embeds the source's `end`). -/
structure WorkingIntervalRow where
  start : String
  stop : String
  deriving DecidableEq, Repr

/-- Row of the `bookings` table, as far as `getDbBusyBlocks` reads it. -/
structure BookingRow where
  booking_id : Int
  staff_id : Int
  status : String
  booking_start_time : Int
  booking_end_time : Int
  deriving DecidableEq, Repr

/-- `getStaffDetails`: the query either throws (caught, yielding `null`),
finds no row (`null`), or yields the row. -/
def getStaffDetails (staffQueryOutcome : Except Unit (Option StaffDetails)) :
    Option StaffDetails :=
  match staffQueryOutcome with
  | .error _ => none
  | .ok r => r

/-- `getWorkingInterval`: query outcome plus the source's falsiness check
on the selected time strings. -/
def getWorkingInterval (workingQueryOutcome : Except Unit (Option WorkingIntervalRow)) :
    Option WorkingIntervalRow :=
  match workingQueryOutcome with
  | .error _ => none
  | .ok none => none
  | .ok (some w) => if w.start.isEmpty ∨ w.stop.isEmpty then none else some w

/-- Postgres `tstzrange(a1, a2, '[)') && tstzrange(b1, b2, '[)')`: half-open
ranges overlap; an empty range overlaps nothing. -/
def sqlRangesOverlap (a1 a2 b1 b2 : Int) : Bool :=
  a1 < a2 ∧ b1 < b2 ∧ a1 < b2 ∧ b1 < a2

/-- The WHERE clause of `getDbBusyBlocks`: confirmed bookings of the staff
member overlapping the requested UTC range, minus the excluded booking id
when one is given. -/
def dbConflictRows (staffId startTimeUTC endTimeUTC : Int)
    (bookingIdToExclude : Option Int) (table : List BookingRow) : List BookingRow :=
  table.filter (fun b =>
    b.staff_id = staffId ∧ b.status = "confirmed" ∧
    sqlRangesOverlap startTimeUTC endTimeUTC b.booking_start_time b.booking_end_time = true ∧
    ∀ k ∈ bookingIdToExclude, b.booking_id ≠ k)

/-- `getDbBusyBlocks`: the busy intervals of conflicting confirmed
bookings; a thrown query error is caught and yields `[]`.  The `.ok` case
carries the `bookings` table, the SQL engine being modelled by the filter. -/
def getDbBusyBlocks (staffId startTimeUTC endTimeUTC : Int)
    (bookingIdToExclude : Option Int)
    (dbOutcome : Except Unit (List BookingRow)) : List MRange :=
  match dbOutcome with
  | .error _ => []
  | .ok table =>
    (dbConflictRows staffId startTimeUTC endTimeUTC bookingIdToExclude table).map
      (fun b => ⟨b.booking_start_time, b.booking_end_time⟩)

/-- The rows the bookings store would serve: the table on success, nothing
when the query throws (projection used to state table-level hypotheses). -/
def tableRows (dbOutcome : Except Unit (List BookingRow)) : List BookingRow :=
  match dbOutcome with
  | .error _ => []
  | .ok table => table

/-- `getGcalBusyBlocks`: `[]` when the staff member is not Google-connected
(skip, not a conflict); `null` (here `.ok none`) when the client resolves to
`null` or the free/busy query throws (caught); the busy list otherwise.
`getGoogleCalendarClient` is awaited before the `try` block, so a throw
from it propagates to the caller (`.error`). -/
def getGcalBusyBlocks (staffDetails : Option StaffDetails)
    (gcalClientOutcome : Except Unit Bool)
    (gcalQueryOutcome : Except Unit (List MRange)) :
    Except Unit (Option (List MRange)) :=
  match staffDetails with
  | none => .ok (some [])
  | some d =>
    if ¬ d.is_google_connected then .ok (some [])
    else
      match gcalClientOutcome with
      | .error e => .error e
      | .ok false => .ok none
      | .ok true =>
        match gcalQueryOutcome with
        | .error _ => .ok none
        | .ok busy => .ok (some busy)

/-- `checkAvailability`'s result type. -/
structure AvailabilityResult where
  isAvailable : Bool
  reasons : List String
  deriving DecidableEq, Repr

/-- Everything `checkAvailability` consumes: its arguments plus the
behaviour of every collaborator it touches.  `bookingStartMins` /
`bookingEndMins` are the request's minute offsets from local midnight in
the business timezone, the oracle model of the `moment` diff computation. -/
structure AvailabilityEnv where
  staffId : Int
  newBookingStartTimeUTC : Int
  newBookingEndTimeUTC : Int
  bookingTimezone : String
  businessTimezoneValid : Bool
  providedStaffDetails : Option StaffDetails
  staffQueryOutcome : Except Unit (Option StaffDetails)
  workingQueryOutcome : Except Unit (Option WorkingIntervalRow)
  bookingStartMins : Int
  bookingEndMins : Int
  bookingsTable : Except Unit (List BookingRow)
  bookingIdToExclude : Option Int
  gcalClientOutcome : Except Unit Bool
  gcalQueryOutcome : Except Unit (List MRange)
  deriving Repr

def msgTimezoneError : String := "Server configuration error [Timezone]."
def msgStaffInactive : String := "Staff member not found or inactive."
def msgNoWorkDay : String := "Staff member does not work on the selected day."
def msgDbConflict : String := "Conflicts with another booking in the schedule."
def msgGcalUnverifiable : String := "Could not verify Google Calendar availability."
def msgGcalConflict : String := "Conflicts with an event in the staff\x27s Google Calendar."
def msgInternalError : String := "An internal error occurred while checking availability."

/-- The interpolated working-hours reason string. -/
def msgOutsideHours (w : WorkingIntervalRow) (tz : String) : String :=
  "Time slot falls outside staff working hours (" ++ w.start ++ " - " ++
    w.stop ++ " " ++ tz ++ ")."

/-- `providedStaffDetails || await getStaffDetails(...)`. -/
def resolvedStaffDetails (env : AvailabilityEnv) : Option StaffDetails :=
  match env.providedStaffDetails with
  | some d => some d
  | none => getStaffDetails env.staffQueryOutcome

/-- `block.start.isBefore(newEndTime) && block.end.isAfter(newStartTime)`:
the JavaScript-side overlap re-check on fetched busy blocks. -/
def momentOverlap (block : MRange) (newStartTime newEndTime : Int) : Bool :=
  block.start < newEndTime ∧ block.stop > newStartTime

/-- The body of `checkAvailability` (everything inside its `try` block,
after the timezone guard): the staged pipeline.  `.error` is an exception
escaping the body into the `catch` clause. -/
def checkAvailabilityBody (env : AvailabilityEnv) : Except Unit AvailabilityResult :=
  match resolvedStaffDetails env with
  | none => .ok ⟨false, [msgStaffInactive]⟩
  | some d =>
    if ¬ d.is_active then .ok ⟨false, [msgStaffInactive]⟩
    else
      match getWorkingInterval env.workingQueryOutcome with
      | none => .ok ⟨false, [msgNoWorkDay]⟩
      | some w =>
        if env.bookingStartMins < timeToMinutes w.start ∨
            env.bookingEndMins > timeToMinutes w.stop then
          .ok ⟨false, [msgOutsideHours w env.bookingTimezone]⟩
        else
          let dbBusyBlocks := getDbBusyBlocks env.staffId env.newBookingStartTimeUTC
            env.newBookingEndTimeUTC env.bookingIdToExclude env.bookingsTable
          if dbBusyBlocks.any (fun b =>
              momentOverlap b env.newBookingStartTimeUTC env.newBookingEndTimeUTC) then
            .ok ⟨false, [msgDbConflict]⟩
          else
            match getGcalBusyBlocks (some d) env.gcalClientOutcome env.gcalQueryOutcome with
            | .error e => .error e
            | .ok none => .ok ⟨false, [msgGcalUnverifiable]⟩
            | .ok (some gcalBusy) =>
              let reasons :=
                if gcalBusy.any (fun b =>
                    momentOverlap b env.newBookingStartTimeUTC env.newBookingEndTimeUTC) then
                  [msgGcalConflict]
                else []
              .ok ⟨reasons.isEmpty, reasons⟩

/-- `checkAvailability`: the timezone guard, then the `try` body, with the
`catch` clause converting any escaped exception into the internal-error
result.  Total at its interface by construction. -/
def checkAvailability (env : AvailabilityEnv) : AvailabilityResult :=
  if ¬ env.businessTimezoneValid then ⟨false, [msgTimezoneError]⟩
  else
    match checkAvailabilityBody env with
    | .ok r => r
    | .error _ => ⟨false, [msgInternalError]⟩

/-! ### SlotEnumerationService: `src/app/api/slots/route.ts`, GET

The per-staff computation inside `eligibleStaff.map(...)`.  Busy blocks
enter the model already converted to local-day minute offsets (the
oracle image of the `moment` `.tz(businessTimezone).diff(dayStartLocal)`
computation); the route's clipping to `[0, 1440)` is explicit. -/

/-- A slot as returned to the frontend. -/
structure PublicSlot where
  time : String
  staffId : Int
  staffName : String
  deriving DecidableEq, Repr

/-- The route's clipping of a local-minute busy block to the day:
`max(start, 0)`, `min(end, 1440)`, dropped when empty. -/
def clipToDay (blocks : List MRange) : List MRange :=
  blocks.filterMap (fun block =>
    let overlapStart := max block.start 0
    let overlapEnd := min block.stop 1440
    if overlapStart < overlapEnd then some ⟨overlapStart, overlapEnd⟩ else none)

/-- Oracle inputs of one staff member's slot computation in the GET
handler.  `gcalFetch` is the outcome of `getGcalBusyBlocks` for the day
(`.error` = it threw; `.ok none` = the unverifiable marker `null`;
`.ok (some l)` = busy blocks, given as local minute offsets). -/
structure SlotStaffEnv where
  staff_id : Int
  staffName : String
  staffQueryOutcome : Except Unit (Option StaffDetails)
  workingQueryOutcome : Except Unit (Option WorkingIntervalRow)
  dbBusyLocalMinutes : List MRange
  gcalFetch : Except Unit (Option (List MRange))
  deriving Repr

/-- Body of the per-staff `try` block in the GET handler: resolve staff
and working hours, clip busy blocks, subtract, enumerate 15-minute-stepped
starts, format.  A GCal fetch that signals failure-to-verify (`.ok none`)
is logged and then ignored (`gcalBusyMinutes = []`). -/
def staffDaySlotsBody (serviceDuration : Int) (env : SlotStaffEnv) :
    Except Unit (List PublicSlot) :=
  match getStaffDetails env.staffQueryOutcome with
  | none => .ok []
  | some d =>
    if ¬ d.is_active then .ok []
    else
      match getWorkingInterval env.workingQueryOutcome with
      | none => .ok []
      | some w =>
        let workingStartMins := timeToMinutes w.start
        let workingEndMins := timeToMinutes w.stop
        if workingStartMins < 0 ∨ workingEndMins ≤ workingStartMins then .ok []
        else
          let workingIntervalsMinutes := [MRange.mk workingStartMins workingEndMins]
          let dbBusyMinutes := clipToDay env.dbBusyLocalMinutes
          match env.gcalFetch with
          | .error e => .error e
          | .ok gcalBusyBlocks =>
            let gcalBusyMinutes :=
              match gcalBusyBlocks with
              | none => []
              | some blocks => clipToDay blocks
            let allBusyMinutes := dbBusyMinutes ++ gcalBusyMinutes
            let freeIntervals := calculateFreeIntervals workingIntervalsMinutes allBusyMinutes
            let availableMinutes := generateSlots freeIntervals serviceDuration 15
            .ok (availableMinutes.map (fun startMinute =>
              ⟨formatTime startMinute, env.staff_id, env.staffName⟩))

/-- One staff member's contribution of slot candidates: the `try` body,
with the per-staff `catch` turning any thrown error into `[]` for that
staff member only. -/
def staffDaySlots (serviceDuration : Int) (env : SlotStaffEnv) : List PublicSlot :=
  match staffDaySlotsBody serviceDuration env with
  | .error _ => []
  | .ok slots => slots

/-- `allSlots`: the concatenated per-staff candidates, in eligible-staff
order (`Promise.allSettled` preserves order). -/
def slotsForStaffList (serviceDuration : Int) (envs : List SlotStaffEnv) : List PublicSlot :=
  (envs.map (staffDaySlots serviceDuration)).flatten

/-! ### BookingTransactionCoordinator: `src/app/api/bookings/route.ts`, POST

The create flow is modelled as the sequence of transactional events it
performs, so ordering claims (insert / external-calendar call / commit,
and what the row locks span) are statements about the trace. -/

/-- JavaScript truthiness of the nullable `google_calendar_id` column
(`null` and the empty string are falsy). -/
def jsTruthyStr (s : Option String) : Bool :=
  match s with
  | none => false
  | some v => ¬ v.isEmpty

/-- The observable transactional steps of the POST handler. -/
inductive TxnEvent where
  | beginTxn
  | lockServiceRow
  | lockStaffRow
  | availabilityCheck
  | insertBooking
  | gcalInsertAttempt
  | setGoogleEventId
  | commitTxn
  | rollbackTxn
  deriving DecidableEq, Repr

/-- Oracle inputs of one POST run: request validity, collaborator
outcomes for the in-transaction steps, and the availability-check
environment pieces.  `gcalClientForEvent` is the step-7 client
acquisition (awaited outside the inner `try`, so `.error` escapes to the
outer catch); `gcalInsertOutcome` covers `events.insert` and the
follow-up `google_event_id` update (both inside the inner `try`). -/
structure PostEnv where
  staffId : Int
  startUTC : Int
  endUTC : Int
  inputValid : Bool
  businessTimezoneValid : Bool
  serviceFound : Bool
  staffRow : Option StaffDetails
  customerOk : Bool
  timeParseValid : Bool
  bookingTimezone : String
  workingQueryOutcome : Except Unit (Option WorkingIntervalRow)
  bookingStartMins : Int
  bookingEndMins : Int
  bookingsTable : Except Unit (List BookingRow)
  gcalClientOutcome : Except Unit Bool
  gcalQueryOutcome : Except Unit (List MRange)
  insertOk : Bool
  gcalClientForEvent : Except Unit Bool
  gcalInsertOutcome : Except Unit Unit
  deriving Repr

/-- The availability check the POST runs inside its transaction: staff
details are passed in (`staffDetails: staffDetails`), the exclusion id is
`null`. -/
def postAvailabilityEnv (env : PostEnv) : AvailabilityEnv where
  staffId := env.staffId
  newBookingStartTimeUTC := env.startUTC
  newBookingEndTimeUTC := env.endUTC
  bookingTimezone := env.bookingTimezone
  businessTimezoneValid := env.businessTimezoneValid
  providedStaffDetails := env.staffRow
  staffQueryOutcome := .ok none
  workingQueryOutcome := env.workingQueryOutcome
  bookingStartMins := env.bookingStartMins
  bookingEndMins := env.bookingEndMins
  bookingsTable := env.bookingsTable
  bookingIdToExclude := none
  gcalClientOutcome := env.gcalClientOutcome
  gcalQueryOutcome := env.gcalQueryOutcome

/-- The event trace of one POST run, following the handler line by line:
validation before the transaction; `BEGIN`; `getServiceDetails` (locks the
service row, throws when absent); locked `getStaffDetails` (throws when
missing or inactive); `findOrCreateCustomer`; time parsing;
`checkAvailability`; the `confirmed` INSERT; the best-effort GCal event
creation; `COMMIT` — any throw reaching the outer catch emits `ROLLBACK`.
The GCal attempt sits between the INSERT and the COMMIT, inside the open
transaction. -/
def postBookingTrace (env : PostEnv) : List TxnEvent :=
  if ¬ env.inputValid ∨ ¬ env.businessTimezoneValid then []
  else
    TxnEvent.beginTxn ::
    (if ¬ env.serviceFound then [TxnEvent.rollbackTxn]
     else
      TxnEvent.lockServiceRow ::
      (match env.staffRow with
       | none => [TxnEvent.rollbackTxn]
       | some d =>
         TxnEvent.lockStaffRow ::
         (if ¬ d.is_active then [TxnEvent.rollbackTxn]
          else if ¬ env.customerOk then [TxnEvent.rollbackTxn]
          else if ¬ env.timeParseValid then [TxnEvent.rollbackTxn]
          else
            TxnEvent.availabilityCheck ::
            (if ¬ (checkAvailability (postAvailabilityEnv env)).isAvailable then
              [TxnEvent.rollbackTxn]
             else if ¬ env.insertOk then [TxnEvent.rollbackTxn]
             else
              TxnEvent.insertBooking ::
              (if d.is_google_connected ∧ jsTruthyStr d.google_calendar_id then
                match env.gcalClientForEvent with
                | .error _ => [TxnEvent.rollbackTxn]
                | .ok false => [TxnEvent.commitTxn]
                | .ok true =>
                  TxnEvent.gcalInsertAttempt ::
                  (match env.gcalInsertOutcome with
                   | .error _ => [TxnEvent.commitTxn]
                   | .ok _ => [TxnEvent.setGoogleEventId, TxnEvent.commitTxn])
               else [TxnEvent.commitTxn])))))

/-- `a` occurs strictly before `b` somewhere in the trace `t`. -/
def eventBefore (a b : TxnEvent) (t : List TxnEvent) : Prop :=
  ∃ i : Fin t.length, ∃ j : Fin t.length, i.val < j.val ∧ t.get i = a ∧ t.get j = b

instance (a b : TxnEvent) (t : List TxnEvent) : Decidable (eventBefore a b t) := by
  unfold eventBefore; infer_instance

/-! ### Concrete environments used to instantiate the theorems -/

/-- An active, Google-connected staff member. -/
def sampleStaff : StaffDetails := ⟨"Alice Smith", some "alice@example.com", true, true⟩

/-- A 09:00–17:00 working day. -/
def sampleWorking : WorkingIntervalRow := ⟨"09:00", "17:00"⟩

/-- A well-behaved availability check: active staff, 09:00–17:00 working
hours, a 10:00–10:30 request, empty bookings table, healthy Google fetch. -/
def envBase : AvailabilityEnv where
  staffId := 1
  newBookingStartTimeUTC := 1000
  newBookingEndTimeUTC := 1030
  bookingTimezone := "America/New_York"
  businessTimezoneValid := true
  providedStaffDetails := none
  staffQueryOutcome := .ok (some sampleStaff)
  workingQueryOutcome := .ok (some sampleWorking)
  bookingStartMins := 600
  bookingEndMins := 630
  bookingsTable := .ok []
  bookingIdToExclude := none
  gcalClientOutcome := .ok true
  gcalQueryOutcome := .ok []

/-- `envBase`, with the Google client resolving to `null` (the adapter
signals failure-to-verify). -/
def envGcalDown : AvailabilityEnv := { envBase with gcalClientOutcome := .ok false }

/-- `envBase`, with the stored-booking conflict query throwing. -/
def envDbError : AvailabilityEnv := { envBase with bookingsTable := .error () }

/-- `envBase`, with `getGoogleCalendarClient` throwing (an exception that
escapes into `checkAvailability`'s catch clause). -/
def envGcalThrow : AvailabilityEnv := { envBase with gcalClientOutcome := .error () }

/-- `envBase`, where the only confirmed overlapping stored booking is the
one excluded by `bookingIdToExclude` (the reschedule situation). -/
def envExclude : AvailabilityEnv :=
  { envBase with
    bookingsTable := .ok [⟨42, 1, "confirmed", 990, 1100⟩]
    bookingIdToExclude := some 42 }

/-- A slot-listing staff member whose Google Calendar fetch signals
failure-to-verify, with a free 09:00–17:00 day otherwise. -/
def slotEnvGcalDown : SlotStaffEnv where
  staff_id := 1
  staffName := "Alice Smith"
  staffQueryOutcome := .ok (some sampleStaff)
  workingQueryOutcome := .ok (some sampleWorking)
  dbBusyLocalMinutes := []
  gcalFetch := .ok none

/-- A POST run in which every step succeeds, for a Google-connected staff
member. -/
def postEnvAllGood : PostEnv where
  staffId := 1
  startUTC := 1000
  endUTC := 1030
  inputValid := true
  businessTimezoneValid := true
  serviceFound := true
  staffRow := some sampleStaff
  customerOk := true
  timeParseValid := true
  bookingTimezone := "America/New_York"
  workingQueryOutcome := .ok (some sampleWorking)
  bookingStartMins := 600
  bookingEndMins := 630
  bookingsTable := .ok []
  gcalClientOutcome := .ok true
  gcalQueryOutcome := .ok []
  insertOk := true
  gcalClientForEvent := .ok true
  gcalInsertOutcome := .ok ()

/-! ### Helper lemmas: interval set algebra -/

/-- A point's multiplicity in the split pieces of one free range equals
its multiplicity in the free range, unless the point lies in the busy
block (then it is zero): the per-element step of `subtractBusy`. -/
theorem countP_subtractBusy_pieces (busy free : MRange) (p : Int)
    (hov : max free.start busy.start < min free.stop busy.stop) :
    ((if free.start < busy.start then [MRange.mk free.start busy.start] else []) ++
      (if free.stop > busy.stop then [MRange.mk busy.stop free.stop] else [])).countP
        (inRange p) =
      if busy.start ≤ p ∧ p < busy.stop then 0
      else if inRange p free then 1 else 0 := by
  rw [List.countP_append]
  by_cases h1 : free.start < busy.start <;> by_cases h2 : free.stop > busy.stop <;>
    simp only [h1, h2, if_pos, if_neg, not_true, not_false_iff, List.countP_cons,
      List.countP_nil, inRange] <;>
    simp only [decide_eq_true_eq] <;>
    split_ifs <;> omega

/-- Subtracting one non-degenerate busy block zeroes the multiplicity of
its points in the free-interval list and preserves the multiplicity of
every other point. -/
theorem countP_subtractBusy (busy : MRange) (hb : busy.start < busy.stop) (p : Int)
    (l : List MRange) :
    (subtractBusy busy l).countP (inRange p) =
      if busy.start ≤ p ∧ p < busy.stop then 0 else l.countP (inRange p) := by
  induction l with
  | nil => simp [subtractBusy]
  | cons free rest ih =>
    by_cases hdeg : free.stop ≤ free.start
    · rw [subtractBusy, if_pos hdeg, ih, List.countP_cons]
      have hfree : inRange p free = false := by
        simp only [inRange, decide_eq_false_iff_not]; omega
      simp [hfree]
    · rw [subtractBusy, if_neg hdeg]
      by_cases hov : max free.start busy.start < min free.stop busy.stop
      · rw [if_pos hov, List.countP_append, countP_subtractBusy_pieces busy free p hov, ih,
          List.countP_cons]
        by_cases hpb : busy.start ≤ p ∧ p < busy.stop
        · simp [hpb]
        · simp only [if_neg hpb]
          split_ifs <;> omega
      · rw [if_neg hov, List.countP_cons, ih, List.countP_cons]
        by_cases hpb : busy.start ≤ p ∧ p < busy.stop
        · have hfree : inRange p free = false := by
            simp only [inRange, decide_eq_false_iff_not]; omega
          simp [hpb, hfree]
        · simp [hpb]

theorem insertByStart_perm (b : MRange) (l : List MRange) :
    (insertByStart b l).Perm (b :: l) := by
  induction l with
  | nil => simp [insertByStart]
  | cons x xs ih =>
    rw [insertByStart]
    split_ifs
    · exact List.Perm.refl _
    · exact ((ih.cons x).trans (List.Perm.swap b x xs))

theorem sortByStart_perm (l : List MRange) : (sortByStart l).Perm l := by
  induction l with
  | nil => simp [sortByStart]
  | cons x xs ih => exact (insertByStart_perm x (sortByStart xs)).trans (ih.cons x)

theorem countP_subtract_foldl (p : Int) (L : List MRange) (W : List MRange) :
    (L.foldl (fun freeIntervals busy =>
        if busy.stop ≤ busy.start then freeIntervals else subtractBusy busy freeIntervals)
      W).countP (inRange p) =
      if ∃ b ∈ L, inRange p b = true then 0 else W.countP (inRange p) := by
  induction L generalizing W with
  | nil => simp
  | cons b L ih =>
    rw [List.foldl_cons, ih]
    by_cases hdeg : b.stop ≤ b.start
    · have hpb : inRange p b = false := by
        simp only [inRange, decide_eq_false_iff_not]; omega
      have hcons : (∃ c ∈ b :: L, inRange p c = true) ↔ ∃ c ∈ L, inRange p c = true := by
        simp [List.exists_mem_cons_iff, hpb]
      rw [if_pos hdeg, if_congr hcons rfl rfl]
    · rw [if_neg hdeg, countP_subtractBusy b (by omega) p W]
      by_cases hpb : b.start ≤ p ∧ p < b.stop
      · have hmem : inRange p b = true := by
          simp only [inRange, decide_eq_true_eq]; exact hpb
        have hcons : ∃ c ∈ b :: L, inRange p c = true := ⟨b, List.mem_cons_self b L, hmem⟩
        rw [if_pos hcons, if_pos hpb]
        split_ifs <;> rfl
      · have hmem : inRange p b = false := by
          simp only [inRange, decide_eq_false_iff_not]; exact hpb
        have hcons : (∃ c ∈ b :: L, inRange p c = true) ↔ ∃ c ∈ L, inRange p c = true := by
          simp [List.exists_mem_cons_iff, hmem]
        rw [if_neg hpb, if_congr hcons rfl rfl]

/-- The multiplicity of a point in `calculateFreeIntervals W B`: zero when
the point lies in some busy block, its multiplicity in `W` otherwise. -/
theorem countP_calculateFreeIntervals (W B : List MRange) (p : Int) :
    (calculateFreeIntervals W B).countP (inRange p) =
      if ∃ b ∈ B, inRange p b = true then 0 else W.countP (inRange p) := by
  rw [calculateFreeIntervals, countP_subtract_foldl]
  have hiff : (∃ b ∈ sortByStart B, inRange p b = true) ↔ ∃ b ∈ B, inRange p b = true := by
    constructor
    · rintro ⟨b, hb, hpb⟩
      exact ⟨b, ((sortByStart_perm B).mem_iff).mp hb, hpb⟩
    · rintro ⟨b, hb, hpb⟩
      exact ⟨b, ((sortByStart_perm B).mem_iff).mpr hb, hpb⟩
  exact if_congr hiff rfl rfl

/-- No point of an output free interval lies in any busy block. -/
theorem not_busy_of_mem_calculateFreeIntervals (W B : List MRange) (r : MRange) (p : Int)
    (hr : r ∈ calculateFreeIntervals W B) (hp : inRange p r = true) :
    ∀ b ∈ B, inRange p b = false := by
  intro b hb
  by_contra hpb
  rw [Bool.not_eq_false] at hpb
  have h0 : (calculateFreeIntervals W B).countP (inRange p) = 0 := by
    rw [countP_calculateFreeIntervals, if_pos ⟨b, hb, hpb⟩]
  have hpos : 0 < (calculateFreeIntervals W B).countP (inRange p) :=
    List.countP_pos_iff.mpr ⟨r, hr, hp⟩
  omega

/-- The enumeration loop's value does not depend on the fuel, provided
the fuel is at least the remaining iteration count. -/
theorem slotStartsFromGo_fuel (stop duration step : Int) (hstep : 0 < step) :
    ∀ f1 f2 s, (stop - duration - s + 1).toNat ≤ f1 →
      (stop - duration - s + 1).toNat ≤ f2 →
      slotStartsFromGo stop duration step f1 s = slotStartsFromGo stop duration step f2 s := by
  intro f1
  induction f1 with
  | zero =>
    intro f2 s h1 h2
    have hc : ¬ (s + duration ≤ stop) := by omega
    cases f2 <;> simp [slotStartsFromGo, hc]
  | succ f ih =>
    intro f2 s h1 h2
    cases f2 with
    | zero =>
      have hc : ¬ (s + duration ≤ stop) := by omega
      simp [slotStartsFromGo, hc]
    | succ g =>
      by_cases hc : s + duration ≤ stop
      · rw [slotStartsFromGo, slotStartsFromGo, if_pos hc, if_pos hc,
          ih g (s + step) (by omega) (by omega)]
      · rw [slotStartsFromGo, slotStartsFromGo, if_neg hc, if_neg hc]

/-- The fuel of `slotStartsFrom` is invisible: the function satisfies the
while loop's defining unrolling. -/
theorem slotStartsFrom_unfold (stop duration step s : Int) (hstep : 0 < step) :
    slotStartsFrom stop duration step s =
      if s + duration ≤ stop then s :: slotStartsFrom stop duration step (s + step)
      else [] := by
  rw [slotStartsFrom, slotStartsFrom]
  by_cases hc : s + duration ≤ stop
  · rw [if_pos hc]
    obtain ⟨n, hn⟩ : ∃ n, (stop - duration - s + 1).toNat = n + 1 :=
      ⟨(stop - duration - s + 1).toNat - 1, by omega⟩
    rw [hn, slotStartsFromGo, if_pos hc]
    rw [slotStartsFromGo_fuel stop duration step hstep n
      ((stop - duration - (s + step) + 1).toNat) (s + step) (by omega) (by omega)]
  · rw [if_neg hc]
    cases hfuel : (stop - duration - s + 1).toNat <;> simp [slotStartsFromGo, hc]

/-- Every start emitted by the enumeration loop is at least the loop's
starting point and leaves room for the duration before `stop`. -/
theorem mem_slotStartsFromGo (stop duration step : Int) (hstep : 0 < step) :
    ∀ fuel s x, x ∈ slotStartsFromGo stop duration step fuel s →
      s ≤ x ∧ x + duration ≤ stop := by
  intro fuel
  induction fuel with
  | zero =>
    intro s x hx
    simp [slotStartsFromGo] at hx
  | succ f ih =>
    intro s x hx
    rw [slotStartsFromGo] at hx
    by_cases hc : s + duration ≤ stop
    · rw [if_pos hc] at hx
      rcases List.mem_cons.mp hx with hxs | hxr
      · omega
      · have := ih (s + step) x hxr
        omega
    · rw [if_neg hc] at hx
      simp at hx

/-- Every start emitted by `slotStartsFrom` is at least the starting
point and leaves room for the duration before `stop`. -/
theorem mem_slotStartsFrom (stop duration step : Int) (hstep : 0 < step) (s x : Int)
    (hx : x ∈ slotStartsFrom stop duration step s) : s ≤ x ∧ x + duration ≤ stop :=
  mem_slotStartsFromGo stop duration step hstep _ s x hx

/-- Every slot start produced by `generateSlots` fits, with the service
duration, inside one of the input free intervals. -/
theorem mem_generateSlots (F : List MRange) (duration step x : Int)
    (hx : x ∈ generateSlots F duration step) :
    ∃ r ∈ F, r.start ≤ x ∧ x + duration ≤ r.stop := by
  unfold generateSlots at hx
  simp only [List.mem_flatten, List.mem_map] at hx
  obtain ⟨l, ⟨r, hr, hl⟩, hxl⟩ := hx
  refine ⟨r, hr, ?_⟩
  rw [← hl] at hxl
  split at hxl
  · simp at hxl
  · exact mem_slotStartsFrom r.stop duration (max step 1)
      (lt_of_lt_of_le zero_lt_one (le_max_right step 1)) r.start x hxl

/-! ### Claim theorems -/

/-- **C4** (amended): for all working ranges `W` and busy ranges `B`, no
point of any output range of `calculateFreeIntervals W B` lies within any
interval of `B`; and — provided no point lies in two ranges of `W` (the
slot route always passes a single working range) — every point of `W`
lying in no interval of `B` lies in exactly one output range.  The
disjointness proviso is forced: with overlapping working ranges a point
can lie in two output ranges (see the counterexample). -/
theorem calculateFreeIntervals_correct (W B : List MRange) (p : Int) :
    (∀ r ∈ calculateFreeIntervals W B, inRange p r = true → ∀ b ∈ B, inRange p b = false)
    ∧ (W.countP (inRange p) ≤ 1 →
        (∃ w ∈ W, inRange p w = true) → (∀ b ∈ B, inRange p b = false) →
        (calculateFreeIntervals W B).countP (inRange p) = 1) := by
  constructor
  · intro r hr hp
    exact not_busy_of_mem_calculateFreeIntervals W B r p hr hp
  · intro hdisj hw hnb
    rw [countP_calculateFreeIntervals]
    have hnex : ¬ ∃ b ∈ B, inRange p b = true := by
      rintro ⟨b, hb, hpb⟩
      rw [hnb b hb] at hpb
      exact Bool.false_ne_true hpb
    rw [if_neg hnex]
    obtain ⟨w, hwmem, hwp⟩ := hw
    have hpos : 0 < W.countP (inRange p) := List.countP_pos_iff.mpr ⟨w, hwmem, hwp⟩
    omega

/-- **C4**, as frozen, fails: with the overlapping working ranges
`[0,10)` and `[5,15)` and no busy ranges, the point 7 lies in `W` and in
no busy interval, yet lies in two output ranges rather than exactly one. -/
theorem calculateFreeIntervals_exactly_one_counterexample :
    (∃ w ∈ [MRange.mk 0 10, MRange.mk 5 15], inRange 7 w = true) ∧
    (∀ b ∈ ([] : List MRange), inRange 7 b = false) ∧
    (calculateFreeIntervals [MRange.mk 0 10, MRange.mk 5 15] []).countP (inRange 7) = 2 ∧
    ¬ (calculateFreeIntervals [MRange.mk 0 10, MRange.mk 5 15] []).countP (inRange 7) = 1 := by
  decide

/-- Witness for `calculateFreeIntervals_correct` at the spec's concrete
scenario C (working 09:00–17:00, busy 10:00–11:00, point 09:10). -/
theorem calculateFreeIntervals_correct_witness :
    ([MRange.mk 540 1020].countP (inRange 550) ≤ 1) ∧
    (∃ w ∈ [MRange.mk 540 1020], inRange 550 w = true) ∧
    (∀ b ∈ [MRange.mk 600 660], inRange 550 b = false) ∧
    (calculateFreeIntervals [MRange.mk 540 1020] [MRange.mk 600 660]).countP (inRange 550) = 1 :=
  ⟨by decide, by decide, by decide,
    (calculateFreeIntervals_correct [MRange.mk 540 1020] [MRange.mk 600 660] 550).2
      (by decide) (by decide) (by decide)⟩

/-- **C5**: every slot start `s` emitted by `generateSlots` satisfies
`s + duration ≤ r.stop` (and `r.start ≤ s`) for a free range `r` that
produced it; and when the free ranges are `calculateFreeIntervals W B`,
no point of a generated slot interval `[s, s + duration)` lies within any
busy range of `B`. -/
theorem generateSlots_correct (W B F : List MRange) (duration step : Int) :
    (∀ s ∈ generateSlots F duration step, ∃ r ∈ F, r.start ≤ s ∧ s + duration ≤ r.stop)
    ∧ (F = calculateFreeIntervals W B →
        ∀ s ∈ generateSlots F duration step, ∀ q : Int, s ≤ q → q < s + duration →
          ∀ b ∈ B, inRange q b = false) := by
  constructor
  · intro s hs
    exact mem_generateSlots F duration step s hs
  · rintro rfl s hs q hq1 hq2 b hb
    obtain ⟨r, hr, hrs, hre⟩ := mem_generateSlots _ duration step s hs
    have hqr : inRange q r = true := by
      simp only [inRange, decide_eq_true_eq]; omega
    exact not_busy_of_mem_calculateFreeIntervals W B r q hr hqr b hb

/-- Witness for `generateSlots_correct` at scenario C: slot start 540 is
generated, and minute 545 of the slot `[540, 570)` avoids the busy block
`[600, 660)`. -/
theorem generateSlots_correct_witness :
    (540 ∈ generateSlots (calculateFreeIntervals [MRange.mk 540 1020] [MRange.mk 600 660]) 30 15) ∧
    inRange 545 (MRange.mk 600 660) = false :=
  ⟨by decide,
    (generateSlots_correct [MRange.mk 540 1020] [MRange.mk 600 660] _ 30 15).2 rfl 540
      (by decide) 545 (by decide) (by decide) (MRange.mk 600 660) (by decide)⟩

set_option maxRecDepth 8000 in
/-- The round-trip checked over every minute of the day. -/
theorem timeToMinutes_formatTime_all :
    ((List.range 1440).all fun m => timeToMinutes (formatTime m) == m) = true := by
  rfl

/-- **C6**: for every integer `m` in `[0, 1439]`,
`timeToMinutes (formatTime m) = m`. -/
theorem timeToMinutes_formatTime (m : Int) (h0 : 0 ≤ m) (h1 : m ≤ 1439) :
    timeToMinutes (formatTime m) = m := by
  have hall := timeToMinutes_formatTime_all
  rw [List.all_eq_true] at hall
  have hmem : m.toNat ∈ List.range 1440 := List.mem_range.mpr (by omega)
  have hbeq := hall _ hmem
  rw [beq_iff_eq] at hbeq
  rwa [Int.toNat_of_nonneg h0] at hbeq

/-- Witness for `timeToMinutes_formatTime` at `m = 600` (10:00). -/
theorem timeToMinutes_formatTime_witness :
    (0 ≤ (600 : Int)) ∧ ((600 : Int) ≤ 1439) ∧ timeToMinutes (formatTime 600) = 600 :=
  ⟨by decide, by decide, timeToMinutes_formatTime 600 (by decide) (by decide)⟩

/-- **C7**, as frozen, fails: the hour part of `"1x:30"` is non-numeric,
yet `timeToMinutes` returns 90 rather than the invalid marker, because
JavaScript `parseInt` accepts the digit prefix `"1"`. -/
theorem timeToMinutes_nonNumeric_counterexample :
    timeToMinutes "1x:30" = 90 ∧ timeToMinutes "1x:30" ≠ -1 := by
  decide

/-- **C7** (amended): `timeToMinutes` accepts "HH:MM" and "HH:MM:SS"
(ignoring everything after the second ':'), and — being a total
function — returns the invalid marker `-1` instead of failing whenever
the string does not have at least two ':'-separated parts whose
`parseInt` values exist (a leading-digit prefix after optional whitespace
and sign) with hour in 0–23 and minute in 0–59; a part with a numeric
prefix followed by other characters is accepted via its prefix. -/
theorem timeToMinutes_spec (s : String) :
    (∀ p0 p1 rest h m, splitOnChar ':' s.data = p0 :: p1 :: rest →
        parseIntJs p0 = some h → parseIntJs p1 = some m →
        0 ≤ h → h ≤ 23 → 0 ≤ m → m ≤ 59 →
        timeToMinutes s = h * 60 + m) ∧
    (timeToMinutes s = -1 ∨
      ∃ p0 p1 rest h m, splitOnChar ':' s.data = p0 :: p1 :: rest ∧
        parseIntJs p0 = some h ∧ parseIntJs p1 = some m ∧
        0 ≤ h ∧ h ≤ 23 ∧ 0 ≤ m ∧ m ≤ 59 ∧
        timeToMinutes s = h * 60 + m) := by
  constructor
  · intro p0 p1 rest h m hsplit hp0 hp1 hh0 hh1 hm0 hm1
    have hne : ¬ s.data.isEmpty = true := by
      intro hemp
      rw [List.isEmpty_iff.mp hemp] at hsplit
      simp [splitOnChar] at hsplit
    rw [timeToMinutes, if_neg hne, hsplit]
    simp only [hp0, hp1]
    rw [if_neg (by omega)]
  · by_cases hemp : s.data.isEmpty = true
    · exact Or.inl (by rw [timeToMinutes, if_pos hemp])
    · rcases hsp : splitOnChar ':' s.data with _ | ⟨p0, _ | ⟨p1, rest⟩⟩
      · exact Or.inl (by rw [timeToMinutes, if_neg hemp, hsp])
      · exact Or.inl (by rw [timeToMinutes, if_neg hemp, hsp])
      · rcases hp0 : parseIntJs p0 with _ | h
        · exact Or.inl (by rw [timeToMinutes, if_neg hemp, hsp]; simp [hp0])
        · rcases hp1 : parseIntJs p1 with _ | m
          · exact Or.inl (by rw [timeToMinutes, if_neg hemp, hsp]; simp [hp0, hp1])
          · by_cases hrange : h < 0 ∨ h > 23 ∨ m < 0 ∨ m > 59
            · exact Or.inl
                (by rw [timeToMinutes, if_neg hemp, hsp]
                    simp only [hp0, hp1]
                    rw [if_pos hrange])
            · exact Or.inr ⟨p0, p1, rest, h, m, rfl, hp0, hp1, by omega, by omega, by omega,
                by omega,
                by rw [timeToMinutes, if_neg hemp, hsp]
                   simp only [hp0, hp1]
                   rw [if_neg hrange]⟩

/-- Witness for `timeToMinutes_spec` at `"10:30"`. -/
theorem timeToMinutes_spec_witness : timeToMinutes "10:30" = 630 :=
  (timeToMinutes_spec "10:30").1 ['1', '0'] ['3', '0'] [] 10 30 (by decide) (by decide)
    (by decide) (by decide) (by decide) (by decide) (by decide)

/-- The working-hours reason starts with 'T' whatever is interpolated. -/
theorem msgOutsideHours_head (w : WorkingIntervalRow) (tz : String) :
    (msgOutsideHours w tz).data.head? = some 'T' := by
  rw [msgOutsideHours]
  simp only [String.data_append, List.head?_append]
  rfl

/-- The stored-booking conflict reason differs from every interpolated
working-hours reason. -/
theorem msgDbConflict_ne_msgOutsideHours (w : WorkingIntervalRow) (tz : String) :
    msgDbConflict ≠ msgOutsideHours w tz := by
  intro h
  have hd : msgDbConflict.data.head? = some 'C' := rfl
  rw [h, msgOutsideHours_head] at hd
  simp at hd

/-- The only reason lists `checkAvailability` can produce, and in the
stored-booking-conflict case the fetched busy blocks indeed overlap. -/
theorem checkAvailability_reason_shapes (env : AvailabilityEnv) :
    (checkAvailability env).reasons = [] ∨
    (checkAvailability env).reasons = [msgTimezoneError] ∨
    (checkAvailability env).reasons = [msgStaffInactive] ∨
    (checkAvailability env).reasons = [msgNoWorkDay] ∨
    (∃ w, (checkAvailability env).reasons = [msgOutsideHours w env.bookingTimezone]) ∨
    ((checkAvailability env).reasons = [msgDbConflict] ∧
      (getDbBusyBlocks env.staffId env.newBookingStartTimeUTC env.newBookingEndTimeUTC
        env.bookingIdToExclude env.bookingsTable).any
        (fun b => momentOverlap b env.newBookingStartTimeUTC env.newBookingEndTimeUTC) = true) ∨
    (checkAvailability env).reasons = [msgGcalUnverifiable] ∨
    (checkAvailability env).reasons = [msgGcalConflict] ∨
    (checkAvailability env).reasons = [msgInternalError] := by
  by_cases htz : env.businessTimezoneValid = true
  · rcases hsd : resolvedStaffDetails env with _ | d
    · have hval : checkAvailability env = ⟨false, [msgStaffInactive]⟩ := by
        simp [checkAvailability, checkAvailabilityBody, htz, hsd]
      rw [hval]
      exact Or.inr (Or.inr (Or.inl rfl))
    · by_cases hact : d.is_active = true
      · rcases hwi : getWorkingInterval env.workingQueryOutcome with _ | w
        · have hval : checkAvailability env = ⟨false, [msgNoWorkDay]⟩ := by
            simp [checkAvailability, checkAvailabilityBody, htz, hsd, hact, hwi]
          rw [hval]
          exact Or.inr (Or.inr (Or.inr (Or.inl rfl)))
        · by_cases hhours : env.bookingStartMins < timeToMinutes w.start ∨
              env.bookingEndMins > timeToMinutes w.stop
          · have hval : checkAvailability env =
                ⟨false, [msgOutsideHours w env.bookingTimezone]⟩ := by
              simp [checkAvailability, checkAvailabilityBody, htz, hsd, hact, hwi, hhours]
            rw [hval]
            exact Or.inr (Or.inr (Or.inr (Or.inr (Or.inl ⟨w, rfl⟩))))
          · by_cases hdbc : (getDbBusyBlocks env.staffId env.newBookingStartTimeUTC
                env.newBookingEndTimeUTC env.bookingIdToExclude env.bookingsTable).any
                (fun b => momentOverlap b env.newBookingStartTimeUTC
                  env.newBookingEndTimeUTC) = true
            · have hval : checkAvailability env = ⟨false, [msgDbConflict]⟩ := by
                simp [checkAvailability, checkAvailabilityBody, htz, hsd, hact, hwi, hhours,
                  hdbc]
              rw [hval]
              exact Or.inr (Or.inr (Or.inr (Or.inr (Or.inr (Or.inl ⟨rfl, hdbc⟩)))))
            · rcases hg : getGcalBusyBlocks (some d) env.gcalClientOutcome
                  env.gcalQueryOutcome with e | (_ | gcalBusy)
              · have hval : checkAvailability env = ⟨false, [msgInternalError]⟩ := by
                  simp [checkAvailability, checkAvailabilityBody, htz, hsd, hact, hwi, hhours,
                    hdbc, hg]
                rw [hval]
                exact Or.inr (Or.inr (Or.inr (Or.inr (Or.inr (Or.inr (Or.inr (Or.inr rfl)))))))
              · have hval : checkAvailability env = ⟨false, [msgGcalUnverifiable]⟩ := by
                  simp [checkAvailability, checkAvailabilityBody, htz, hsd, hact, hwi, hhours,
                    hdbc, hg]
                rw [hval]
                exact Or.inr (Or.inr (Or.inr (Or.inr (Or.inr (Or.inr (Or.inl rfl))))))
              · by_cases hgc : gcalBusy.any (fun b =>
                    momentOverlap b env.newBookingStartTimeUTC env.newBookingEndTimeUTC) = true
                · have hval : checkAvailability env = ⟨false, [msgGcalConflict]⟩ := by
                    simp [checkAvailability, checkAvailabilityBody, htz, hsd, hact, hwi,
                      hhours, hdbc, hg, hgc]
                  rw [hval]
                  exact Or.inr (Or.inr (Or.inr (Or.inr (Or.inr (Or.inr (Or.inr (Or.inl rfl)))))))
                · have hval : checkAvailability env = ⟨true, []⟩ := by
                    simp [checkAvailability, checkAvailabilityBody, htz, hsd, hact, hwi,
                      hhours, hdbc, hg, hgc]
                  rw [hval]
                  exact Or.inl rfl
      · have hval : checkAvailability env = ⟨false, [msgStaffInactive]⟩ := by
          simp [checkAvailability, checkAvailabilityBody, htz, hsd, hact]
        rw [hval]
        exact Or.inr (Or.inr (Or.inl rfl))
  · have hval : checkAvailability env = ⟨false, [msgTimezoneError]⟩ := by
      simp [checkAvailability, htz]
    rw [hval]
    exact Or.inr (Or.inl rfl)

/-- The stored-booking conflict reason can only come from a fetched busy
block that overlaps the request. -/
theorem msgDbConflict_mem_implies_busy (env : AvailabilityEnv)
    (hmem : msgDbConflict ∈ (checkAvailability env).reasons) :
    (getDbBusyBlocks env.staffId env.newBookingStartTimeUTC env.newBookingEndTimeUTC
      env.bookingIdToExclude env.bookingsTable).any
      (fun b => momentOverlap b env.newBookingStartTimeUTC env.newBookingEndTimeUTC) = true := by
  rcases checkAvailability_reason_shapes env with h | h | h | h | ⟨w, h⟩ | ⟨h, hb⟩ | h | h | h
  · rw [h] at hmem; simp at hmem
  · rw [h] at hmem; rw [List.mem_singleton] at hmem; exact absurd hmem (by decide)
  · rw [h] at hmem; rw [List.mem_singleton] at hmem; exact absurd hmem (by decide)
  · rw [h] at hmem; rw [List.mem_singleton] at hmem; exact absurd hmem (by decide)
  · rw [h] at hmem; rw [List.mem_singleton] at hmem
    exact absurd hmem (msgDbConflict_ne_msgOutsideHours w env.bookingTimezone)
  · exact hb
  · rw [h] at hmem; rw [List.mem_singleton] at hmem; exact absurd hmem (by decide)
  · rw [h] at hmem; rw [List.mem_singleton] at hmem; exact absurd hmem (by decide)
  · rw [h] at hmem; rw [List.mem_singleton] at hmem; exact absurd hmem (by decide)

/-- **C1**: whenever the pipeline reaches the external-calendar stage
(valid timezone, active staff, working day, request inside hours, no
stored-booking conflict) and the adapter signals failure-to-verify, the
check is unavailable with the verification reason among its reasons —
fail-closed, regardless of stored-booking state. -/
theorem gcalUnverifiable_fail_closed (env : AvailabilityEnv) (d : StaffDetails)
    (w : WorkingIntervalRow)
    (htz : env.businessTimezoneValid = true)
    (hstaff : resolvedStaffDetails env = some d)
    (hactive : d.is_active = true)
    (hwork : getWorkingInterval env.workingQueryOutcome = some w)
    (hhours : ¬ (env.bookingStartMins < timeToMinutes w.start ∨
        env.bookingEndMins > timeToMinutes w.stop))
    (hnodb : (getDbBusyBlocks env.staffId env.newBookingStartTimeUTC
        env.newBookingEndTimeUTC env.bookingIdToExclude env.bookingsTable).any
        (fun b => momentOverlap b env.newBookingStartTimeUTC env.newBookingEndTimeUTC) = false)
    (hunv : getGcalBusyBlocks (some d) env.gcalClientOutcome env.gcalQueryOutcome =
        Except.ok none) :
    (checkAvailability env).isAvailable = false ∧
      msgGcalUnverifiable ∈ (checkAvailability env).reasons := by
  have hres : checkAvailability env = ⟨false, [msgGcalUnverifiable]⟩ := by
    simp [checkAvailability, checkAvailabilityBody, htz, hstaff, hactive, hwork, hhours,
      hnodb, hunv]
  rw [hres]
  exact ⟨rfl, List.mem_singleton.mpr rfl⟩

/-- Witness for `gcalUnverifiable_fail_closed`: the Google client resolves
to `null` in an otherwise conflict-free check. -/
theorem gcalUnverifiable_fail_closed_witness :
    (checkAvailability envGcalDown).isAvailable = false ∧
      msgGcalUnverifiable ∈ (checkAvailability envGcalDown).reasons :=
  gcalUnverifiable_fail_closed envGcalDown sampleStaff sampleWorking rfl (by decide) rfl
    (by decide) (by decide) (by decide) rfl

/-- **C8**: when every confirmed stored booking of the staff member
overlapping the requested UTC range is the excluded booking itself,
the stored-booking conflict reason is not reported — a reschedule never
conflicts with the booking being rescheduled. -/
theorem excludedBooking_not_reported (env : AvailabilityEnv) (k : Int)
    (hexc : env.bookingIdToExclude = some k)
    (htab : ∀ b ∈ tableRows env.bookingsTable, b.staff_id = env.staffId →
        b.status = "confirmed" →
        sqlRangesOverlap env.newBookingStartTimeUTC env.newBookingEndTimeUTC
          b.booking_start_time b.booking_end_time = true →
        b.booking_id = k) :
    msgDbConflict ∉ (checkAvailability env).reasons := by
  intro hmem
  have hbusy := msgDbConflict_mem_implies_busy env hmem
  have hempty : getDbBusyBlocks env.staffId env.newBookingStartTimeUTC
      env.newBookingEndTimeUTC env.bookingIdToExclude env.bookingsTable = [] := by
    rcases htable : env.bookingsTable with e | table
    · simp [getDbBusyBlocks, htable]
    · have hrows : dbConflictRows env.staffId env.newBookingStartTimeUTC
          env.newBookingEndTimeUTC env.bookingIdToExclude table = [] := by
        rw [dbConflictRows, List.filter_eq_nil_iff]
        intro b hb hcond
        simp only [hexc, decide_eq_true_eq] at hcond
        obtain ⟨h1, h2, h3, h4⟩ := hcond
        have hbtab : b ∈ tableRows env.bookingsTable := by
          rw [htable]; exact hb
        exact h4 k (Option.mem_some_iff.mpr rfl) (htab b hbtab h1 h2 h3)
      simp [getDbBusyBlocks, htable, hrows]
  rw [hempty] at hbusy
  simp at hbusy

/-- Witness for `excludedBooking_not_reported`: the sole overlapping
confirmed booking (id 42) is the one being rescheduled. -/
theorem excludedBooking_not_reported_witness :
    msgDbConflict ∉ (checkAvailability envExclude).reasons :=
  excludedBooking_not_reported envExclude 42 rfl (by decide)

/-- **C9**, as frozen, fails: with the stored-booking conflict query
throwing, `checkAvailability` does not propagate an error distinct from
an unavailable decision — it folds the failure into a perfectly normal
(here even available) result, because `getDbBusyBlocks` catches the
error and reports zero conflicts. -/
theorem dbError_normal_result_counterexample :
    envDbError.bookingsTable = Except.error () ∧
    checkAvailability envDbError = ⟨true, []⟩ := by
  constructor
  · rfl
  · decide

/-- **C9** (amended): stage-level reasons are returned as data, but no
unexpected failure propagates either: a thrown persistence error while
fetching stored-booking conflicts is caught inside `getDbBusyBlocks` and
treated as zero stored-booking conflicts (fail-open), so the
stored-booking conflict reason can never be caused by it, and the check
returns a normal `AvailabilityResult`. -/
theorem dbError_swallowed (env : AvailabilityEnv)
    (herr : env.bookingsTable = Except.error ()) :
    getDbBusyBlocks env.staffId env.newBookingStartTimeUTC env.newBookingEndTimeUTC
      env.bookingIdToExclude env.bookingsTable = [] ∧
    msgDbConflict ∉ (checkAvailability env).reasons := by
  have hempty : getDbBusyBlocks env.staffId env.newBookingStartTimeUTC
      env.newBookingEndTimeUTC env.bookingIdToExclude env.bookingsTable = [] := by
    simp [getDbBusyBlocks, herr]
  refine ⟨hempty, fun hmem => ?_⟩
  have hbusy := msgDbConflict_mem_implies_busy env hmem
  rw [hempty] at hbusy
  simp at hbusy

/-- Witness for `dbError_swallowed` at the concrete throwing environment. -/
theorem dbError_swallowed_witness :
    envDbError.bookingsTable = Except.error () ∧
    (getDbBusyBlocks envDbError.staffId envDbError.newBookingStartTimeUTC
      envDbError.newBookingEndTimeUTC envDbError.bookingIdToExclude
      envDbError.bookingsTable = [] ∧
    msgDbConflict ∉ (checkAvailability envDbError).reasons) :=
  ⟨rfl, dbError_swallowed envDbError rfl⟩

/-- **C10**: `checkAvailability` is total at its interface (it returns an
`AvailabilityResult` for every collaborator behaviour by construction of
the embedding), and whenever an exception escapes its body — any
collaborator throw not caught further down — the catch clause yields
`isAvailable = false` with the single internal-error reason. -/
theorem checkAvailability_internal_catch (env : AvailabilityEnv) (e : Unit)
    (htz : env.businessTimezoneValid = true)
    (herr : checkAvailabilityBody env = Except.error e) :
    checkAvailability env = ⟨false, [msgInternalError]⟩ := by
  rw [checkAvailability, if_neg (by simp [htz]), herr]

/-- Witness for `checkAvailability_internal_catch`: the Google client
acquisition throws. -/
theorem checkAvailability_internal_catch_witness :
    envGcalThrow.businessTimezoneValid = true ∧
    checkAvailabilityBody envGcalThrow = Except.error () ∧
    checkAvailability envGcalThrow = ⟨false, [msgInternalError]⟩ :=
  ⟨rfl, rfl, checkAvailability_internal_catch envGcalThrow () rfl rfl⟩

/-- **C2**, as frozen, fails: a staff member whose external-calendar
fetch signals failure-to-verify does not contribute zero slots — the GET
handler ignores the failed fetch (`gcalBusyMinutes = []`) and still
enumerates that staff member's slots from stored bookings alone. -/
theorem slotsGcalDown_counterexample :
    slotEnvGcalDown.gcalFetch = Except.ok none ∧
    staffDaySlots 30 slotEnvGcalDown ≠ [] := by
  constructor
  · rfl
  · decide

/-- **C2** (amended): a failure-to-verify from the external calendar is
ignored for that staff member — the slots are computed exactly as if the
external calendar had no busy intervals (fail-open) — while each staff
member's contribution stays independent, so the other staff members'
slots are unaffected. -/
theorem slotsGcalDown_ignored (serviceDuration : Int) (env : SlotStaffEnv)
    (henv : env.gcalFetch = Except.ok none) :
    staffDaySlots serviceDuration env =
      staffDaySlots serviceDuration { env with gcalFetch := Except.ok (some []) } ∧
    ∀ pre post : List SlotStaffEnv,
      slotsForStaffList serviceDuration (pre ++ env :: post) =
        slotsForStaffList serviceDuration pre ++ staffDaySlots serviceDuration env ++
          slotsForStaffList serviceDuration post := by
  constructor
  · simp [staffDaySlots, staffDaySlotsBody, henv, clipToDay]
  · intro pre post
    simp [slotsForStaffList, List.append_assoc]

/-- Witness for `slotsGcalDown_ignored` at the concrete failed-fetch
staff environment. -/
theorem slotsGcalDown_ignored_witness :
    slotEnvGcalDown.gcalFetch = Except.ok none ∧
    staffDaySlots 30 slotEnvGcalDown =
      staffDaySlots 30 { slotEnvGcalDown with gcalFetch := Except.ok (some []) } :=
  ⟨rfl, (slotsGcalDown_ignored 30 slotEnvGcalDown rfl).1⟩

/-- **C3**, as frozen, fails: in a fully successful creation for a
Google-connected staff member the external-calendar event creation
happens strictly before the commit, inside the open transaction with the
staff row lock held; moreover, if the Google client acquisition throws
at that point the whole transaction — booking insert included — is
rolled back. -/
theorem postBooking_externalBeforeCommit_counterexample :
    TxnEvent.commitTxn ∈ postBookingTrace postEnvAllGood ∧
    TxnEvent.insertBooking ∈ postBookingTrace postEnvAllGood ∧
    eventBefore TxnEvent.gcalInsertAttempt TxnEvent.commitTxn (postBookingTrace postEnvAllGood) ∧
    ¬ eventBefore TxnEvent.commitTxn TxnEvent.gcalInsertAttempt
        (postBookingTrace postEnvAllGood) ∧
    eventBefore TxnEvent.lockStaffRow TxnEvent.gcalInsertAttempt
        (postBookingTrace postEnvAllGood) ∧
    TxnEvent.rollbackTxn ∈ postBookingTrace
        { postEnvAllGood with gcalClientForEvent := Except.error () } ∧
    TxnEvent.commitTxn ∉ postBookingTrace
        { postEnvAllGood with gcalClientForEvent := Except.error () } := by
  decide

set_option maxHeartbeats 1600000 in
/-- **C3** (amended): on every committed creation the insert precedes the
commit, no rollback occurs, and when the external-calendar attempt
happens it sits between the insert and the commit — inside the
transaction, with the row locks held across the external call; an
`events.insert` failure is swallowed and the commit still happens. -/
theorem postBooking_order (env : PostEnv) (t : List TxnEvent)
    (ht : postBookingTrace env = t)
    (h : TxnEvent.commitTxn ∈ t) :
    eventBefore TxnEvent.insertBooking TxnEvent.commitTxn t ∧
    TxnEvent.rollbackTxn ∉ t ∧
    (TxnEvent.gcalInsertAttempt ∈ t →
      eventBefore TxnEvent.insertBooking TxnEvent.gcalInsertAttempt t ∧
      eventBefore TxnEvent.gcalInsertAttempt TxnEvent.commitTxn t) := by
  rw [postBookingTrace] at ht
  rcases hsr : env.staffRow with _ | d
  · simp only [hsr] at ht
    split_ifs at ht <;> subst ht <;> exact absurd h (by decide)
  · rcases hgc : env.gcalClientForEvent with e1 | (_ | _) <;>
      rcases hgi : env.gcalInsertOutcome with e2 | u2 <;>
      simp only [hsr, hgc, hgi] at ht <;>
      split_ifs at ht <;>
      subst ht <;>
      first
        | exact absurd h (by decide)
        | decide

/-- Witness for `postBooking_order` at the all-success run. -/
theorem postBooking_order_witness :
    TxnEvent.commitTxn ∈ postBookingTrace postEnvAllGood ∧
    eventBefore TxnEvent.insertBooking TxnEvent.commitTxn (postBookingTrace postEnvAllGood) ∧
    TxnEvent.rollbackTxn ∉ postBookingTrace postEnvAllGood :=
  ⟨by decide,
    (postBooking_order postEnvAllGood (postBookingTrace postEnvAllGood) rfl (by decide)).1,
    (postBooking_order postEnvAllGood (postBookingTrace postEnvAllGood) rfl (by decide)).2.1⟩

end Booking
